import Mathlib

/-!
# Verification of the solana-edition-fixer core pipeline

A shallow embedding, in Lean 4, of the core logic of `src/index.js` of the
`solana-edition-fixer` repository: the `Cargo.lock` parser, the version
comparator, the issue detector, the remediation generators, the analysis
entry point, and the fix executor.

JavaScript strings are modelled as `String` / `List Char`; JavaScript's
`String.prototype.split` with a one-character separator is modelled by
`jsSplitCh`; `parseInt(s, 10) || 0` is modelled by `jsParseIntOr0`
(leading ASCII whitespace, an optional sign, then the longest run of
decimal digits; no digits means `NaN`, which `|| 0` turns into `0`).
Absent JavaScript values (`undefined` / `null`) are modelled by `Option`.
Filesystem contents are modelled by `Option String` fields (`none` = the
file does not exist), and subprocess execution by an explicit oracle
giving the outcome of each spawned process in order.
-/

namespace EditionFixer

/-! ## JavaScript string primitives -/

/-- The whitespace characters skipped by JavaScript `parseInt` and matched by
the regex class `\s` (restricted to the ASCII range, which is the only range
that can occur in the version strings and lockfile lines this tool handles):
space, tab, line feed, vertical tab, form feed, carriage return. -/
def jsSpace (c : Char) : Bool :=
  c = ' ' || c = '\t' || c = '\n' || c = Char.ofNat 11 || c = Char.ofNat 12 || c = '\r'

/-- JavaScript `str.split(sep)` for a one-character separator `sep`:
splits at every occurrence of `sep`; `"".split(sep)` is `[""]`. -/
def jsSplitCh (sep : Char) : List Char → List (List Char)
  | [] => [[]]
  | c :: rest =>
    if c = sep then
      [] :: jsSplitCh sep rest
    else
      match jsSplitCh sep rest with
      | [] => [[c]]
      | g :: gs => (c :: g) :: gs

/-- The decimal value of a digit run. -/
def digitsVal (cs : List Char) : Nat :=
  cs.foldl (fun acc c => 10 * acc + (c.toNat - '0'.toNat)) 0

/-- JavaScript `parseInt(s, 10) || 0`: skip leading whitespace, read an
optional sign, then the longest run of decimal digits; if there is no digit
the result is `NaN`, and `NaN || 0` (like `-0 || 0`) evaluates to `0`. -/
def jsParseIntOr0 (cs : List Char) : Int :=
  let cs := cs.dropWhile jsSpace
  match cs with
  | '-' :: rest =>
    let ds := rest.takeWhile Char.isDigit
    if ds.isEmpty then 0 else -(digitsVal ds : Int)
  | '+' :: rest =>
    let ds := rest.takeWhile Char.isDigit
    if ds.isEmpty then 0 else (digitsVal ds : Int)
  | _ =>
    let ds := cs.takeWhile Char.isDigit
    if ds.isEmpty then 0 else (digitsVal ds : Int)

/-! ## Version comparator (`compareVersions`, src/index.js lines 158-173) -/

/-- The tail of the comparison loop of `compareVersions` once `parts1` is
exhausted: each remaining component of `parts2` is compared against
`parts1[i] || 0 = 0`. -/
def cmpZeros : List Int → Int
  | [] => 0
  | p2 :: rest2 =>
    if (0 : Int) > p2 then 1 else if (0 : Int) < p2 then -1 else cmpZeros rest2

/-- The comparison loop of `compareVersions`:
`for (let i = 0; i < Math.max(parts1.length, parts2.length); i++)` with
`parts1[i] || 0` and `parts2[i] || 0` reading `0` past the end of a list,
returning at the first differing component and `0` when the loop finishes. -/
def cmpParts : List Int → List Int → Int
  | [], parts2 => cmpZeros parts2
  | p1 :: rest1, [] =>
    if p1 > 0 then 1 else if p1 < 0 then -1 else cmpParts rest1 []
  | p1 :: rest1, p2 :: rest2 =>
    if p1 > p2 then 1 else if p1 < p2 then -1 else cmpParts rest1 rest2

/-- `v.split('-')[0].split('+')[0]` (the `clean` version string) followed by
`.split('.')` and `.map(s => parseInt(s, 10) || 0)`: the numeric component
list of a version string. -/
def versionParts (v : String) : List Int :=
  (jsSplitCh '.' ((jsSplitCh '+' ((jsSplitCh '-' v.data).headD [])).headD [])).map jsParseIntOr0

/-- `compareVersions(v1, v2)` (src/index.js lines 158-173): strip pre-release
and build suffixes, split on dots, parse each component with
`parseInt(_, 10) || 0`, then compare component-wise, padding the shorter list
with zeros. Returns `1`, `-1` or `0`. -/
def compareVersions (v1 v2 : String) : Int :=
  cmpParts (versionParts v1) (versionParts v2)

example : compareVersions "1.8.3" "1.5.0" = 1 := by decide
example : compareVersions "2.5.0" "2.5.0" = 0 := by decide
example : compareVersions "1.2.0-beta" "1.2.0" = 0 := by decide
example : compareVersions "1.2" "1.2.0" = 0 := by decide
example : compareVersions "1.2abc" "1.1" = 1 := by decide

/-! ## Data model -/

/-- A package block parsed out of `Cargo.lock`: `{name, version, source?}`.
`source` is absent (`undefined` in JavaScript) when the block has no
`source = "..."` line. -/
structure PackageRecord where
  name : String
  version : String
  source : Option String
deriving DecidableEq

/-- One entry of the compatibility table (`database.crates[name]`). The
database JSON is external data; `reason` and `usedBy` may be absent, which the
detector compensates with defaults. -/
structure CrateInfo where
  maxCompatible : String
  firstIncompatible : String
  reason : Option String
  usedBy : Option (List String)
deriving DecidableEq

/-- An issue produced by `findProblematicDeps`. -/
structure Issue where
  name : String
  currentVersion : String
  maxCompatible : String
  firstIncompatible : String
  reason : String
  usedBy : List String
  source : Option String
deriving DecidableEq

/-- JavaScript `a || b` for a possibly-absent string `a`: `undefined` and the
empty string are falsy, so both fall through to the default. -/
def jsStrOr (o : Option String) (dflt : String) : String :=
  match o with
  | some s => if s = "" then dflt else s
  | none => dflt

/-! ## Issue detector (`findProblematicDeps`, src/index.js lines 178-201) -/

/-- `findProblematicDeps(packages)` (src/index.js lines 178-201). The
compatibility table `database.crates` is passed explicitly as a lookup
function (`none` = the package name is not a key of the table). The JavaScript
`for` loop pushing onto `issues` is modelled by a left fold appending to the
accumulator. -/
def findProblematicDeps (crates : String → Option CrateInfo)
    (packages : List PackageRecord) : List Issue :=
  packages.foldl
    (fun issues pkg =>
      match crates pkg.name with
      | some crateInfo =>
        if compareVersions pkg.version crateInfo.maxCompatible > 0 then
          issues ++ [{ name := pkg.name
                       currentVersion := pkg.version
                       maxCompatible := crateInfo.maxCompatible
                       firstIncompatible := crateInfo.firstIncompatible
                       reason := jsStrOr crateInfo.reason "Requires edition 2024"
                       usedBy := crateInfo.usedBy.getD []
                       source := pkg.source }]
        else issues
      | none => issues)
    []

/-! ## Remediation generators (src/index.js lines 206-248) -/

/-- `generateCargoUpdateCommands(issues)` (src/index.js lines 206-210). -/
def generateCargoUpdateCommands (issues : List Issue) : List String :=
  issues.map (fun issue =>
    "cargo update -p " ++ issue.name ++ " --precise " ++ issue.maxCompatible)

/-- `generatePatchSection(issues)` (src/index.js lines 215-221): a `for` loop
pushing one line per issue after the fixed header, then `join('\n')`. -/
def generatePatchSection (issues : List Issue) : String :=
  let lines := issues.foldl
    (fun lines issue => lines ++ [issue.name ++ " = \"=" ++ issue.maxCompatible ++ "\""])
    ["[patch.crates-io]"]
  String.intercalate "\n" lines

/-- `generateCargoConfig()` (src/index.js lines 226-248): a fixed text. -/
def generateCargoConfig : String :=
  "# Cargo configuration for Solana/Anchor compatibility\n" ++
  "# Generated by solana-edition-fixer\n" ++
  "# https://github.com/volta-team/solana-edition-fixer\n" ++
  "\n" ++
  "[resolver]\n" ++
  "# MSRV-aware resolver - prefer versions compatible with rust-version\n" ++
  "# Requires Cargo 1.84+ to have effect\n" ++
  "incompatible-rust-versions = \"fallback\"\n" ++
  "\n" ++
  "[net]\n" ++
  "# Use git CLI for fetching (more reliable on some systems)\n" ++
  "git-fetch-with-cli = true\n" ++
  "\n" ++
  "[registries.crates-io]\n" ++
  "# Use sparse registry protocol (faster and more stable)\n" ++
  "protocol = \"sparse\"\n" ++
  "\n" ++
  "[build]\n" ++
  "# Recommended for Solana builds\n" ++
  "rustflags = [\"-C\", \"target-cpu=sbfv2\"]\n"

/-! ## Lockfile parser (`parseCargoLock`, src/index.js lines 117-152) -/

/-- Matching a literal prefix of a character list, returning the remainder. -/
def stripPrefixCh : List Char → List Char → Option (List Char)
  | [], rest => some rest
  | _ :: _, [] => none
  | p :: ps, c :: cs => if c = p then stripPrefixCh ps cs else none

/-- The JavaScript regex `/^key\s*=\s*"([^"]+)"/` applied to one line:
the literal key at the start of the line, optional whitespace, `=`, optional
whitespace, a double quote, then a non-empty capture of non-quote characters
closed by a double quote. Returns the capture group. -/
def matchKeyVal (key : List Char) (line : List Char) : Option String :=
  match stripPrefixCh key line with
  | none => none
  | some r1 =>
    match r1.dropWhile jsSpace with
    | '=' :: r2 =>
      match r2.dropWhile jsSpace with
      | '\"' :: r3 =>
        match r3.takeWhile (· ≠ '\"'), r3.dropWhile (· ≠ '\"') with
        | [], _ => none
        | c :: cs, '\"' :: _ => some (String.mk (c :: cs))
        | _ :: _, _ => none
      | _ => none
    | _ => none

/-- The in-progress `currentPackage` object of the parser loop: each field is
absent until a matching line sets it. -/
structure PkgDraft where
  name : Option String := none
  version : Option String := none
  source : Option String := none
deriving DecidableEq

/-- One non-delimiter line applied to the current package draft: the three
independent `if (...)Match` assignments of the loop body (their regexes are
mutually exclusive on any one line, but all three are modelled, in program
order). -/
def stepLine (pp : PkgDraft) (line : List Char) : PkgDraft :=
  let pp1 :=
    match matchKeyVal "name".data line with
    | some v => { pp with name := some v }
    | none => pp
  let pp2 :=
    match matchKeyVal "version".data line with
    | some v => { pp1 with version := some v }
    | none => pp1
  match matchKeyVal "source".data line with
  | some v => { pp2 with source := some v }
  | none => pp2

/-- `if (currentPackage && currentPackage.name && currentPackage.version)
packages.push(currentPackage)`: the draft is emitted only when both `name`
and `version` are set (and truthy, i.e. non-empty — though the regex capture
`[^"]+` can never produce an empty string). -/
def flushPkg : Option PkgDraft → List PackageRecord
  | none => []
  | some pp =>
    match pp.name, pp.version with
    | some n, some v =>
      if n = "" ∨ v = "" then [] else [{ name := n, version := v, source := pp.source }]
    | _, _ => []

/-- The parser loop over the lines of the lockfile, carrying the current
draft (`none` before the first `[[package]]` delimiter) and the accumulated
records. -/
def parseLines : List (List Char) → Option PkgDraft → List PackageRecord → List PackageRecord
  | [], cur, acc => acc ++ flushPkg cur
  | line :: rest, cur, acc =>
    if line = "[[package]]".data then
      parseLines rest (some {}) (acc ++ flushPkg cur)
    else
      match cur with
      | some pp => parseLines rest (some (stepLine pp line)) acc
      | none => parseLines rest none acc

/-- `parseCargoLock(lockPath)` (src/index.js lines 117-152). The file is
modelled as `Option String` (`none` = `fs.existsSync` is false, in which case
the function returns `null`); otherwise the content is split on newlines and
scanned. -/
def parseCargoLock (lockFile : Option String) : Option (List PackageRecord) :=
  match lockFile with
  | none => none
  | some content => some (parseLines (jsSplitCh '\n' content.data) none [])

/-! ## Manifest inspection (`checkCargoToml`, src/index.js lines 253-274) -/

/-- One attempt of the regex `/rust-version\s*=/` at the start of `cs`. -/
def rustVersionAt (cs : List Char) : Bool :=
  match stripPrefixCh "rust-version".data cs with
  | some r =>
    match r.dropWhile jsSpace with
    | '=' :: _ => true
    | _ => false
  | none => false

/-- Unanchored regex `test`: try the position predicate at every suffix. -/
def testScan (p : List Char → Bool) : List Char → Bool
  | [] => p []
  | c :: cs => p (c :: cs) || testScan p cs

/-- One attempt of `/rust-version\s*=\s*"([^"]+)"/` at the start of `cs`,
returning the capture group. -/
def rustVersionCaptureAt (cs : List Char) : Option String :=
  match stripPrefixCh "rust-version".data cs with
  | some r1 =>
    match r1.dropWhile jsSpace with
    | '=' :: r2 =>
      match r2.dropWhile jsSpace with
      | '\"' :: r3 =>
        match r3.takeWhile (· ≠ '\"'), r3.dropWhile (· ≠ '\"') with
        | [], _ => none
        | c :: cs', '\"' :: _ => some (String.mk (c :: cs'))
        | _ :: _, _ => none
      | _ => none
    | _ => none
  | none => none

/-- Unanchored first regex match: try the position matcher at every suffix,
left to right. -/
def matchScan (p : List Char → Option String) : List Char → Option String
  | [] => p []
  | c :: cs =>
    match p (c :: cs) with
    | some v => some v
    | none => matchScan p cs

/-- The result object of `checkCargoToml`. When the manifest is absent the
JavaScript function returns only `{exists: false}`; the remaining fields are
then `none` here (in JavaScript they are simply absent). `exists` is a Lean
keyword, so the field is named `tomlExists`. -/
structure CargoTomlInfo where
  tomlExists : Bool
  hasRustVersion : Option Bool := none
  rustVersion : Option String := none
  hasPatchSection : Option Bool := none
deriving DecidableEq

/-- `checkCargoToml(projectPath)` (src/index.js lines 253-274) on the content
of `Cargo.toml` (`none` = the file does not exist). `hasRustVersion` tests
`/rust-version\s*=/`, `hasPatchSection` tests the literal
`[patch.crates-io]` (the regex `/\[patch\.crates-io\]/` has only escaped
metacharacters), and `rustVersion` is the first capture of
`/rust-version\s*=\s*"([^"]+)"/`, or `null` (`none`). -/
def checkCargoToml (tomlFile : Option String) : CargoTomlInfo :=
  match tomlFile with
  | none => { tomlExists := false }
  | some content =>
    { tomlExists := true
      hasRustVersion := some (testScan rustVersionAt content.data)
      rustVersion := matchScan rustVersionCaptureAt content.data
      hasPatchSection := some (testScan (fun cs => "[patch.crates-io]".data.isPrefixOf cs) content.data) }

/-! ## Analysis entry point (`analyze`, src/index.js lines 367-405) -/

/-- The filesystem of the project directory, restricted to the two files the
analysis reads: `Cargo.toml` and `Cargo.lock` (`none` = the file does not
exist). -/
structure ProjectFS where
  cargoToml : Option String
  cargoLock : Option String

/-- The result object of `analyze`. JavaScript returns records with different
field sets on the three paths; absent fields are `none`. -/
structure AnalysisResult where
  success : Bool
  error : Option String := none
  projectPath : Option String := none
  totalPackages : Option Nat := none
  issues : Option (List Issue) := none
  cargoTomlInfo : Option CargoTomlInfo := none
  commands : Option (List String) := none
  patchSection : Option String := none
deriving DecidableEq

/-- `analyze(projectPath, options)` (src/index.js lines 367-405). The
compatibility table is passed explicitly (in JavaScript it is the module-level
`database.crates`); `path.resolve(projectPath)` is abstracted to the given
path string. -/
def analyze (crates : String → Option CrateInfo) (projectPath : String)
    (fs : ProjectFS) : AnalysisResult :=
  match fs.cargoToml with
  | none =>
    { success := false
      error := some ("No Cargo.toml found in " ++ projectPath) }
  | some tomlContent =>
    let cargoTomlInfo := checkCargoToml (some tomlContent)
    match parseCargoLock fs.cargoLock with
    | none =>
      { success := false
        error := some "No Cargo.lock found. Run `cargo generate-lockfile` first."
        cargoTomlInfo := some cargoTomlInfo }
    | some packages =>
      let issues := findProblematicDeps crates packages
      { success := true
        projectPath := some projectPath
        totalPackages := some packages.length
        issues := some issues
        cargoTomlInfo := some cargoTomlInfo
        commands := some (generateCargoUpdateCommands issues)
        patchSection := some (generatePatchSection issues) }

/-! ## Fix executor (`applyFixes`, src/index.js lines 279-362) -/

/-- The outcome of one `spawnSync('cargo', [...])` call: either the process
ran (`ok`, with its exit status — `none` when killed by a signal — and its
captured stderr, `none` under `stdio: 'inherit'`), or the invocation threw. -/
inductive SpawnOutcome where
  | ok (status : Option Int) (stderr : Option String)
  | exn (message : String)

/-- The parts of the world `applyFixes` interacts with: whether
`.cargo/config.toml` already exists, whether creating it would succeed
(`false` = `mkdirSync`/`writeFileSync` throws), and the outcome of the `i`-th
spawned subprocess. -/
structure FixWorld where
  configExists : Bool
  configWriteOk : Bool
  spawn : Nat → SpawnOutcome

/-- The `results` object accumulated by `applyFixes`. `failed` entries carry
the error text (`result.stderr || 'Unknown error'`, or `err.message`). -/
structure FixResults where
  updated : List String
  failed : List (String × String)
  skipped : List String
  configCreated : Bool
  cargoTomlUpdated : Bool
deriving DecidableEq

/-- A record of one subprocess invocation: the executable and its argument
vector, exactly as passed to `spawnSync`. -/
structure SpawnCall where
  cmd : String
  args : List String
deriving DecidableEq

/-- JavaScript `s.includes(sub)`: `sub` occurs as a contiguous substring. -/
def jsIncludes (s sub : String) : Bool :=
  testScan (fun cs => sub.data.isPrefixOf cs) s.data

/-- The classification of one subprocess outcome (src/index.js lines
331-358): exit status `0` → updated; otherwise a truthy stderr containing
`not found` → skipped; any other non-zero exit → failed with
`result.stderr || 'Unknown error'`; a thrown invocation → failed with the
exception message. -/
def classifyOutcome (outcome : SpawnOutcome) (issue : Issue) (results : FixResults) : FixResults :=
  match outcome with
  | .ok status stderr =>
    if status = some 0 then
      { results with updated := results.updated ++ [issue.name] }
    else if jsStrOr stderr "" ≠ "" && jsIncludes (jsStrOr stderr "") "not found" then
      { results with skipped := results.skipped ++ [issue.name] }
    else
      { results with failed := results.failed ++ [(issue.name, jsStrOr stderr "Unknown error")] }
  | .exn message =>
    { results with failed := results.failed ++ [(issue.name, message)] }

/-- The per-issue loop of `applyFixes` (src/index.js lines 316-359), also
returning the list of subprocess invocations it performs, in order. `i`
indexes the world's spawn oracle. -/
def applyFixesLoop (spawn : Nat → SpawnOutcome) :
    List Issue → Nat → FixResults → FixResults × List SpawnCall
  | [], _, results => (results, [])
  | issue :: rest, i, results =>
    let call : SpawnCall :=
      { cmd := "cargo", args := ["update", "-p", issue.name, "--precise", issue.maxCompatible] }
    let next := applyFixesLoop spawn rest (i + 1) (classifyOutcome (spawn i) issue results)
    (next.1, call :: next.2)

/-- `applyFixes(projectPath, issues, options)` (src/index.js lines 279-362):
the config-file step followed by the per-issue update loop. Returns the
`results` object together with the list of subprocess invocations performed.
A failure of the config write is caught and only logged; `cargoTomlUpdated`
is initialized to `false` and never assigned. -/
def applyFixes (w : FixWorld) (issues : List Issue) : FixResults × List SpawnCall :=
  let init : FixResults :=
    { updated := [], failed := [], skipped := [],
      configCreated := false, cargoTomlUpdated := false }
  let afterConfig :=
    if !w.configExists then
      if w.configWriteOk then { init with configCreated := true } else init
    else init
  applyFixesLoop w.spawn issues 0 afterConfig

/-! ## Concrete sanity checks against the source's documented behavior -/

example :
    parseCargoLock (some ("[[package]]\nname = \"blake3\"\nversion = \"1.8.3\"\n" ++
      "source = \"registry+https://github.com/rust-lang/crates.io-index\"\n\n" ++
      "[[package]]\nname = \"broken\"\n\n[[package]]\nversion = \"0.1.0\"")) =
    some [{ name := "blake3", version := "1.8.3",
            source := some "registry+https://github.com/rust-lang/crates.io-index" }] := by
  decide

example : parseCargoLock (some "") = some [] := by decide

example : parseCargoLock none = none := by decide

example :
    checkCargoToml (some "[package]\nname = \"x\"\nrust-version = \"1.75\"\n") =
    { tomlExists := true, hasRustVersion := some true,
      rustVersion := some "1.75", hasPatchSection := some false } := by
  decide

/-! ## Specification-side definitions

These definitions follow the wording of the specification (not the source)
and are compared with the source-derived definitions above in the refinement
theorems below. -/

/-- Spec §4.4: an Issue is due for a package exactly when its name is a key of
the table and its version compares strictly greater than that entry's
`maxCompatible`. -/
def issueForSpec (crates : String → Option CrateInfo) (pkg : PackageRecord) : Option Issue :=
  match crates pkg.name with
  | some ci =>
    if 0 < compareVersions pkg.version ci.maxCompatible then
      some { name := pkg.name
             currentVersion := pkg.version
             maxCompatible := ci.maxCompatible
             firstIncompatible := ci.firstIncompatible
             reason := jsStrOr ci.reason "Requires edition 2024"
             usedBy := ci.usedBy.getD []
             source := pkg.source }
    else none
  | none => none

/-- Spec §4.3: "strip any pre-release/build suffix (content after a `-` or
`+` character)" — the prefix of the version string before the first `-` or
`+`. -/
def versionCleanSpec (v : String) : List Char :=
  v.data.takeWhile (fun c => !(c = '-' || c = '+'))

/-- Spec §4.3 component list: split the stripped version on dots and parse
each component (`parseInt(_, 10) || 0`). -/
def versionPartsSpec (v : String) : List Int :=
  (jsSplitCh '.' (versionCleanSpec v)).map jsParseIntOr0

/-- Spec §4.3: "a missing trailing component [is] treated as zero" — pad a
component list with zeros to length `n`. -/
def padTo (n : Nat) (xs : List Int) : List Int :=
  xs ++ List.replicate (n - xs.length) 0

/-- Spec §4.3: "compare component-wise left to right ...; first differing
component decides the order; if all compared components are equal, versions
are equal". -/
def lexFirstDiff : List Int → List Int → Int
  | x :: xs, y :: ys => if x = y then lexFirstDiff xs ys else if x > y then 1 else -1
  | _, _ => 0

/-- The version comparison algorithm as §4.3 describes it (with components
parsed by `parseInt(_, 10) || 0`): strip the suffix, split on dots, pad both
component lists to the same length with zeros, and return the sign of the
first difference. -/
def compareVersionsSpec (v1 v2 : String) : Int :=
  let p1 := versionPartsSpec v1
  let p2 := versionPartsSpec v2
  let n := max p1.length p2.length
  lexFirstDiff (padTo n p1) (padTo n p2)

/-- The component parse as claim C3 words it: "treats every non-numeric
component as zero" — a component that is not entirely made of decimal digits
counts as `0`. -/
def numericComponentVal (cs : List Char) : Int :=
  if cs ≠ [] ∧ cs.all Char.isDigit then (digitsVal cs : Int) else 0

/-- The version comparison algorithm exactly as claim C3 states it, with
every non-numeric component treated as zero. -/
def compareVersionsClaimC3 (v1 v2 : String) : Int :=
  let p1 := (jsSplitCh '.' (versionCleanSpec v1)).map numericComponentVal
  let p2 := (jsSplitCh '.' (versionCleanSpec v2)).map numericComponentVal
  let n := max p1.length p2.length
  lexFirstDiff (padTo n p1) (padTo n p2)

/-- Spec §4.1: the record of one delimiter-bounded block — the fields
captured from the block's lines (later lines overwrite earlier ones), emitted
only if both `name` and `version` were captured. -/
def recordOfBlockSpec (blk : List (List Char)) : List PackageRecord :=
  flushPkg (some (blk.foldl stepLine {}))

/-- The delimiter-bounded blocks once inside the first block: `cur` holds the
lines of the current block in reverse order. -/
def blocksInSpec : List (List Char) → List (List Char) → List (List (List Char))
  | [], cur => [cur.reverse]
  | l :: ls, cur =>
    if l = "[[package]]".data then cur.reverse :: blocksInSpec ls []
    else blocksInSpec ls (l :: cur)

/-- Spec §4.1: the delimiter-bounded blocks of a lockfile's lines — one block
per `[[package]]` line, holding the lines up to the next delimiter; lines
before the first delimiter belong to no block. -/
def blocksOfSpec : List (List Char) → List (List (List Char))
  | [] => []
  | l :: ls => if l = "[[package]]".data then blocksInSpec ls [] else blocksOfSpec ls

/-! ## Concrete inputs used by witnesses and counterexamples -/

/-- The issue of the spec's `zeroize` remediation example. -/
def zeroizeIssue : Issue :=
  { name := "zeroize", currentVersion := "1.8.1", maxCompatible := "1.7.0",
    firstIncompatible := "1.8.0", reason := "Requires edition 2024",
    usedBy := [], source := none }

/-- The issue of the spec's `blake3` patch-section example. -/
def blake3Issue : Issue :=
  { name := "blake3", currentVersion := "1.8.3", maxCompatible := "1.5.0",
    firstIncompatible := "1.6.0", reason := "Requires edition 2024",
    usedBy := [], source := none }

/-- A default issue used only as the out-of-range default of `List.getD`. -/
def dummyIssue : Issue :=
  { name := "", currentVersion := "", maxCompatible := "",
    firstIncompatible := "", reason := "", usedBy := [], source := none }

/-- A one-entry compatibility table: `blake3` is capped at `1.5.0`. -/
def cratesW1 : String → Option CrateInfo := fun n =>
  if n = "blake3" then
    some { maxCompatible := "1.5.0", firstIncompatible := "1.6.0",
           reason := some "uses edition 2024", usedBy := some ["solana-program"] }
  else none

/-- A package list: `blake3 1.8.3` (over the cap) and `serde 1.0.0` (not in
the table). -/
def packagesW1 : List PackageRecord :=
  [{ name := "blake3", version := "1.8.3", source := none },
   { name := "serde", version := "1.0.0", source := none }]

/-- A one-entry table whose entry lacks both `reason` and `usedBy`. -/
def cratesW2 : String → Option CrateInfo := fun n =>
  if n = "bytemuck" then
    some { maxCompatible := "1.2.0", firstIncompatible := "1.3.0",
           reason := none, usedBy := none }
  else none

/-- A package over the cap of `cratesW2`. -/
def packagesW2 : List PackageRecord :=
  [{ name := "bytemuck", version := "1.3.0", source := none }]

/-- The issue the detector emits on `cratesW1` / `packagesW1`. -/
def issueW1 : Issue :=
  { name := "blake3", currentVersion := "1.8.3", maxCompatible := "1.5.0",
    firstIncompatible := "1.6.0", reason := "uses edition 2024",
    usedBy := ["solana-program"], source := none }

/-- The issue the detector emits on `cratesW2` / `packagesW2`: both defaults
apply. -/
def issueW2 : Issue :=
  { name := "bytemuck", currentVersion := "1.3.0", maxCompatible := "1.2.0",
    firstIncompatible := "1.3.0", reason := "Requires edition 2024",
    usedBy := [], source := none }

/-! ## Comparator lemmas -/

theorem cmpParts_nil_right (xs : List Int) : cmpParts xs [] = - cmpZeros xs := by
  induction xs with
  | nil => rfl
  | cons x xs ih =>
    simp only [cmpParts, cmpZeros]
    split_ifs <;> first | exact ih | omega | (exfalso; omega)

theorem cmpParts_neg (xs : List Int) : ∀ ys, cmpParts xs ys = - cmpParts ys xs := by
  induction xs with
  | nil =>
    intro ys
    rw [show cmpParts [] ys = cmpZeros ys from rfl, cmpParts_nil_right, neg_neg]
  | cons x xs ih =>
    intro ys
    cases ys with
    | nil => exact cmpParts_nil_right (x :: xs)
    | cons y ys =>
      simp only [cmpParts]
      split_ifs <;> first | exact ih ys | omega | (exfalso; omega)

theorem cmpParts_self (xs : List Int) : cmpParts xs xs = 0 := by
  induction xs with
  | nil => rfl
  | cons x xs ih => simp only [cmpParts, lt_irrefl, if_false, ih, gt_iff_lt]

/-- The claim id is C2. For all version strings, `compareVersions` is
antisymmetric (`compareVersions a b > 0` iff `compareVersions b a < 0`),
reflexively zero (`compareVersions a a = 0`), and identifies versions that
differ only in a pre-release suffix: `compareVersions "1.2.0-beta" "1.2.0"`
is `0`. -/
theorem C2_compareVersions_antisymm :
    (∀ a b, compareVersions a b > 0 ↔ compareVersions b a < 0) ∧
    (∀ a, compareVersions a a = 0) ∧
    compareVersions "1.2.0-beta" "1.2.0" = 0 := by
  refine ⟨fun a b => ?_, fun a => ?_, by decide⟩
  · unfold compareVersions
    rw [cmpParts_neg]
    omega
  · exact cmpParts_self _

/-! ## Refinement of the comparator to the §4.3 algorithm -/

theorem jsSplitCh_ne_nil (sep : Char) (cs : List Char) : jsSplitCh sep cs ≠ [] := by
  cases cs with
  | nil => simp [jsSplitCh]
  | cons c rest =>
    simp only [jsSplitCh]
    split
    · simp
    · split <;> simp

theorem headD_jsSplitCh (sep : Char) (cs : List Char) :
    (jsSplitCh sep cs).headD [] = cs.takeWhile (· ≠ sep) := by
  induction cs with
  | nil => rfl
  | cons c rest ih =>
    simp only [jsSplitCh, List.takeWhile]
    by_cases h : c = sep
    · simp [h]
    · rcases hE : jsSplitCh sep rest with _ | ⟨g, gs⟩
      · exact absurd hE (jsSplitCh_ne_nil sep rest)
      · rw [hE] at ih
        simp only [List.headD] at ih
        simp [h, hE, ih]

theorem takeWhile_ne_ne (cs : List Char) :
    (cs.takeWhile (· ≠ '-')).takeWhile (· ≠ '+') =
      cs.takeWhile (fun c => !(c = '-' || c = '+')) := by
  induction cs with
  | nil => rfl
  | cons c cs ih =>
    by_cases h1 : c = '-' <;> by_cases h2 : c = '+' <;> simp_all [List.takeWhile]

theorem versionParts_eq_spec (v : String) : versionParts v = versionPartsSpec v := by
  unfold versionParts versionPartsSpec versionCleanSpec
  rw [headD_jsSplitCh, headD_jsSplitCh, takeWhile_ne_ne]

theorem padTo_succ_cons (n : Nat) (x : Int) (xs : List Int) :
    padTo (n + 1) (x :: xs) = x :: padTo n xs := by
  simp [padTo, Nat.succ_sub_succ]

theorem padTo_nil (n : Nat) : padTo n ([] : List Int) = List.replicate n 0 := by
  simp [padTo]

theorem lexFirstDiff_replicate_pad (n : Nat) :
    ∀ ys : List Int, ys.length ≤ n →
      lexFirstDiff (List.replicate n 0) (padTo n ys) = cmpZeros ys := by
  induction n with
  | zero =>
    intro ys hy
    have h : ys = [] := List.length_eq_zero.mp (Nat.le_zero.mp hy)
    subst h; rfl
  | succ n ih =>
    intro ys hy
    cases ys with
    | nil =>
      rw [padTo_nil, List.replicate_succ]
      simp only [lexFirstDiff, if_pos rfl]
      have h := ih [] (Nat.zero_le n)
      rw [padTo_nil] at h
      simpa using h
    | cons y ys =>
      rw [List.replicate_succ, padTo_succ_cons]
      simp only [lexFirstDiff, cmpZeros]
      split_ifs <;>
        first
        | exact ih ys (Nat.le_of_succ_le_succ (by simpa using hy))
        | omega
        | (exfalso; omega)

theorem lexFirstDiff_pad_replicate (n : Nat) :
    ∀ xs : List Int, xs.length ≤ n →
      lexFirstDiff (padTo n xs) (List.replicate n 0) = cmpParts xs [] := by
  induction n with
  | zero =>
    intro xs hx
    have h : xs = [] := List.length_eq_zero.mp (Nat.le_zero.mp hx)
    subst h; rfl
  | succ n ih =>
    intro xs hx
    cases xs with
    | nil =>
      rw [padTo_nil, List.replicate_succ]
      simp only [lexFirstDiff, if_pos rfl]
      have h := ih [] (Nat.zero_le n)
      rw [padTo_nil] at h
      simpa using h
    | cons x xs =>
      rw [List.replicate_succ, padTo_succ_cons]
      simp only [lexFirstDiff, cmpParts]
      split_ifs <;>
        first
        | exact ih xs (Nat.le_of_succ_le_succ (by simpa using hx))
        | omega
        | (exfalso; omega)

theorem cmpParts_eq_lexFirstDiff_pad (xs : List Int) :
    ∀ (ys : List Int) (n : Nat), xs.length ≤ n → ys.length ≤ n →
      cmpParts xs ys = lexFirstDiff (padTo n xs) (padTo n ys) := by
  induction xs with
  | nil =>
    intro ys n _ hy
    rw [padTo_nil, lexFirstDiff_replicate_pad n ys hy]
    rfl
  | cons x xs ih =>
    intro ys n hx hy
    cases ys with
    | nil =>
      rw [padTo_nil, lexFirstDiff_pad_replicate n (x :: xs) hx]
    | cons y ys =>
      cases n with
      | zero => exact absurd hx (by simp)
      | succ n =>
        rw [padTo_succ_cons, padTo_succ_cons]
        simp only [cmpParts, lexFirstDiff]
        split_ifs <;>
          first
          | exact ih ys n (Nat.le_of_succ_le_succ (by simpa using hx))
              (Nat.le_of_succ_le_succ (by simpa using hy))
          | omega
          | (exfalso; omega)

/-- The claim id is C3, amended. `compareVersions` strips the suffix after the
first `-` or `+`, splits the remainder on dots, and compares the component
lists left to right, padded with zeros to equal length, the first difference
deciding; each component is parsed as JavaScript `parseInt(_, 10) || 0` does —
its longest leading run of decimal digits (after optional whitespace and sign)
gives its value, and a component with no leading digits is treated as zero.
It is a total function on strings. -/
theorem C3_compareVersions_algorithm (v1 v2 : String) :
    compareVersions v1 v2 = compareVersionsSpec v1 v2 := by
  unfold compareVersions compareVersionsSpec
  rw [versionParts_eq_spec, versionParts_eq_spec]
  exact cmpParts_eq_lexFirstDiff_pad _ _ _ (Nat.le_max_left _ _) (Nat.le_max_right _ _)

/-- The claim id is C3: counterexample to the claim as stated. The claim says
every non-numeric component is treated as zero, but on `"1.2abc"` versus
`"1.1"` the code parses the non-numeric component `2abc` as `2`
(`parseInt` takes the leading digits), so `compareVersions` answers `1`
while the claimed algorithm (non-numeric components are zero) answers `-1`. -/
theorem C3_counterexample :
    compareVersions "1.2abc" "1.1" = 1 ∧
    compareVersionsClaimC3 "1.2abc" "1.1" = -1 ∧
    compareVersions "1.2abc" "1.1" ≠ compareVersionsClaimC3 "1.2abc" "1.1" := by
  refine ⟨by decide, by decide, by decide⟩

/-- Witness for C3: the amended algorithm equality evaluated at the concrete
pair `("1.8.3", "1.5.0")`. -/
theorem C3_witness :
    compareVersions "1.8.3" "1.5.0" = 1 ∧ compareVersionsSpec "1.8.3" "1.5.0" = 1 := by
  exact ⟨by decide, by rw [← C3_compareVersions_algorithm]; decide⟩

/-! ## Issue detector: characterization -/

theorem findProblematicDeps_loop (crates : String → Option CrateInfo)
    (packages : List PackageRecord) :
    ∀ init : List Issue,
      packages.foldl
        (fun issues pkg =>
          match crates pkg.name with
          | some crateInfo =>
            if compareVersions pkg.version crateInfo.maxCompatible > 0 then
              issues ++ [{ name := pkg.name
                           currentVersion := pkg.version
                           maxCompatible := crateInfo.maxCompatible
                           firstIncompatible := crateInfo.firstIncompatible
                           reason := jsStrOr crateInfo.reason "Requires edition 2024"
                           usedBy := crateInfo.usedBy.getD []
                           source := pkg.source }]
            else issues
          | none => issues)
        init = init ++ packages.filterMap (issueForSpec crates) := by
  induction packages with
  | nil => intro init; simp
  | cons pkg rest ih =>
    intro init
    simp only [List.foldl_cons, List.filterMap_cons]
    cases hc : crates pkg.name with
    | none => rw [ih]; simp [issueForSpec, hc]
    | some ci =>
      rw [ih]
      by_cases hcmp : compareVersions pkg.version ci.maxCompatible > 0 <;>
        simp [issueForSpec, hc, hcmp]

theorem findProblematicDeps_eq_filterMap (crates : String → Option CrateInfo)
    (packages : List PackageRecord) :
    findProblematicDeps crates packages = packages.filterMap (issueForSpec crates) := by
  unfold findProblematicDeps
  simpa using findProblematicDeps_loop crates packages []

theorem mem_findProblematicDeps {crates : String → Option CrateInfo}
    {packages : List PackageRecord} {i : Issue}
    (h : i ∈ findProblematicDeps crates packages) :
    ∃ pkg ∈ packages, ∃ ci, crates pkg.name = some ci ∧
      0 < compareVersions pkg.version ci.maxCompatible ∧
      i = { name := pkg.name
            currentVersion := pkg.version
            maxCompatible := ci.maxCompatible
            firstIncompatible := ci.firstIncompatible
            reason := jsStrOr ci.reason "Requires edition 2024"
            usedBy := ci.usedBy.getD []
            source := pkg.source } := by
  rw [findProblematicDeps_eq_filterMap] at h
  rcases List.mem_filterMap.mp h with ⟨pkg, hmem, hsome⟩
  unfold issueForSpec at hsome
  cases hc : crates pkg.name with
  | none => simp [hc] at hsome
  | some ci =>
    simp only [hc] at hsome
    by_cases hcmp : 0 < compareVersions pkg.version ci.maxCompatible
    · rw [if_pos hcmp] at hsome
      exact ⟨pkg, hmem, ci, hc, hcmp, (Option.some_inj.mp hsome).symm⟩
    · rw [if_neg hcmp] at hsome
      exact absurd hsome (by simp)

/-- The claim id is C1. `findProblematicDeps` produces, in input order, an
Issue for exactly those packages whose name is a key of the table and whose
version compares strictly greater than the entry's `maxCompatible`
(`issueForSpec` is `none` on every other package, in particular on any name
absent from the table and on any version less than or equal to the cap); and
every emitted Issue carries a `currentVersion` strictly greater than its
`maxCompatible`, which is the table entry's cap for its name. -/
theorem C1_findProblematicDeps_exact (crates : String → Option CrateInfo)
    (packages : List PackageRecord) :
    findProblematicDeps crates packages = packages.filterMap (issueForSpec crates) ∧
    (∀ i ∈ findProblematicDeps crates packages,
      0 < compareVersions i.currentVersion i.maxCompatible) ∧
    (∀ i ∈ findProblematicDeps crates packages,
      ∃ ci, crates i.name = some ci ∧ ci.maxCompatible = i.maxCompatible) := by
  refine ⟨findProblematicDeps_eq_filterMap crates packages, fun i hi => ?_, fun i hi => ?_⟩
  · rcases mem_findProblematicDeps hi with ⟨pkg, _, ci, _, hcmp, rfl⟩
    exact hcmp
  · rcases mem_findProblematicDeps hi with ⟨pkg, _, ci, hc, _, rfl⟩
    exact ⟨ci, hc, rfl⟩

/-- Witness for C1: on the concrete table `cratesW1` and packages
`packagesW1`, the emitted issue `issueW1` satisfies the strict version
inequality. -/
theorem C1_witness :
    issueW1 ∈ findProblematicDeps cratesW1 packagesW1 ∧
    0 < compareVersions issueW1.currentVersion issueW1.maxCompatible := by
  have hmem : issueW1 ∈ findProblematicDeps cratesW1 packagesW1 := by decide
  exact ⟨hmem, (C1_findProblematicDeps_exact cratesW1 packagesW1).2.1 issueW1 hmem⟩

theorem jsStrOr_ne_empty (o : Option String) (dflt : String) (hd : dflt ≠ "") :
    jsStrOr o dflt ≠ "" := by
  unfold jsStrOr
  cases o with
  | none => exact hd
  | some s => by_cases hs : s = "" <;> simp [hs, hd]

/-- The claim id is C10. Every Issue emitted by `findProblematicDeps` comes
from a table entry for its name; its `reason` is the entry's reason defaulted
to `"Requires edition 2024"` (when the entry's reason is absent — or empty,
which JavaScript `||` also treats as falsy), its `usedBy` is the entry's
list defaulted to `[]` when absent, and its `reason` is never the empty
string. -/
theorem C10_issue_defaults (crates : String → Option CrateInfo)
    (packages : List PackageRecord) :
    ∀ i ∈ findProblematicDeps crates packages,
      i.reason ≠ "" ∧
      ∃ ci, crates i.name = some ci ∧
        i.reason = jsStrOr ci.reason "Requires edition 2024" ∧
        i.usedBy = ci.usedBy.getD [] ∧
        (ci.reason = none → i.reason = "Requires edition 2024") ∧
        (ci.usedBy = none → i.usedBy = []) := by
  intro i hi
  rcases mem_findProblematicDeps hi with ⟨pkg, _, ci, hc, _, rfl⟩
  refine ⟨jsStrOr_ne_empty _ _ (by decide), ci, hc, rfl, rfl, fun hr => ?_, fun hu => ?_⟩
  · simp [jsStrOr, hr]
  · simp [hu]

/-- Witness for C10: on the concrete table `cratesW2`, whose entry lacks both
`reason` and `usedBy`, the emitted issue `issueW2` has the default non-empty
reason. -/
theorem C10_witness :
    issueW2 ∈ findProblematicDeps cratesW2 packagesW2 ∧ issueW2.reason ≠ "" := by
  have hmem : issueW2 ∈ findProblematicDeps cratesW2 packagesW2 := by decide
  exact ⟨hmem, (C10_issue_defaults cratesW2 packagesW2 issueW2 hmem).1⟩

/-! ## Remediation generators: C5 and C6 -/

theorem generateCargoUpdateCommands_getD :
    ∀ (issues : List Issue) (k : Nat), k < issues.length →
      (generateCargoUpdateCommands issues).getD k "" =
        "cargo update -p " ++ (issues.getD k dummyIssue).name ++ " --precise " ++
          (issues.getD k dummyIssue).maxCompatible := by
  intro issues
  induction issues with
  | nil => intro k hk; simp at hk
  | cons i rest ih =>
    intro k hk
    cases k with
    | zero => simp [generateCargoUpdateCommands]
    | succ k =>
      simp only [generateCargoUpdateCommands, List.map_cons, List.getD_cons_succ]
      exact ih k (by simpa using Nat.lt_of_succ_lt_succ (by simpa using hk))

/-- The claim id is C5: counterexample to the claim as stated. On the single
issue `zeroizeIssue` the generated command string is
`cargo update -p zeroize --precise 1.7.0` — it begins with the program name
`cargo` — and is therefore not the claimed exact string
`update -p zeroize --precise 1.7.0`. -/
theorem C5_counterexample :
    generateCargoUpdateCommands [zeroizeIssue] ≠ ["update -p zeroize --precise 1.7.0"] ∧
    generateCargoUpdateCommands [zeroizeIssue] = ["cargo update -p zeroize --precise 1.7.0"] := by
  exact ⟨by decide, by decide⟩

/-- The claim id is C5, amended. For every issue list,
`generateCargoUpdateCommands` produces exactly one command string per issue,
in issue-list order, of the form
`cargo update -p <name> --precise <maxCompatible>` (duplicates possible);
in particular the single issue `{name: "zeroize", maxCompatible: "1.7.0"}`
yields exactly `["cargo update -p zeroize --precise 1.7.0"]`. -/
theorem C5_generateCargoUpdateCommands_amended :
    (∀ issues : List Issue, (generateCargoUpdateCommands issues).length = issues.length) ∧
    (∀ (issues : List Issue) (k : Nat), k < issues.length →
      (generateCargoUpdateCommands issues).getD k "" =
        "cargo update -p " ++ (issues.getD k dummyIssue).name ++ " --precise " ++
          (issues.getD k dummyIssue).maxCompatible) ∧
    generateCargoUpdateCommands [zeroizeIssue] = ["cargo update -p zeroize --precise 1.7.0"] := by
  exact ⟨fun issues => by simp [generateCargoUpdateCommands],
    generateCargoUpdateCommands_getD, by decide⟩

/-- Witness for C5: the amended index-wise description applied at the
concrete issue list `[zeroizeIssue]` and index `0`. -/
theorem C5_witness :
    0 < ([zeroizeIssue] : List Issue).length ∧
    (generateCargoUpdateCommands [zeroizeIssue]).getD 0 "" =
      "cargo update -p " ++ (([zeroizeIssue] : List Issue).getD 0 dummyIssue).name ++
        " --precise " ++ (([zeroizeIssue] : List Issue).getD 0 dummyIssue).maxCompatible :=
  ⟨by decide, C5_generateCargoUpdateCommands_amended.2.1 [zeroizeIssue] 0 (by decide)⟩

theorem foldl_append_singleton {α β : Type} (f : α → β) :
    ∀ (l : List α) (init : List β),
      l.foldl (fun acc x => acc ++ [f x]) init = init ++ l.map f := by
  intro l
  induction l with
  | nil => intro init; simp
  | cons x xs ih => intro init; simp [ih]

/-- The claim id is C6. `generatePatchSection` returns the fixed header line
followed by exactly one line of the form `<name> = "=<maxCompatible>"` per
issue, in issue-list order, joined by newlines; on the single issue
`{name: "blake3", maxCompatible: "1.5.0"}` it yields the two-line block
`[patch.crates-io]` then `blake3 = "=1.5.0"`. -/
theorem C6_generatePatchSection :
    (∀ issues : List Issue,
      generatePatchSection issues =
        String.intercalate "\n" ("[patch.crates-io]" ::
          issues.map (fun i => i.name ++ " = \"=" ++ i.maxCompatible ++ "\""))) ∧
    generatePatchSection [blake3Issue] = "[patch.crates-io]\nblake3 = \"=1.5.0\"" := by
  constructor
  · intro issues
    unfold generatePatchSection
    rw [foldl_append_singleton]
    rfl
  · decide

/-! ## Analysis entry point: C7 and C8 -/

theorem append_ne_empty_of_left_ne_empty (s t : String) (hs : s ≠ "") : s ++ t ≠ "" := by
  intro h
  apply hs
  have hdata : s.data ++ t.data = [] := by
    have := congrArg String.data h
    simpa using this
  have : s.data = [] := (List.append_eq_nil.mp hdata).1
  cases s
  simp_all

/-- The claim id is C7. When `Cargo.toml` is absent, `analyze` returns the
fatal result with `success = false` and a non-empty error string, and the
result does not depend on the lockfile in any way (the lockfile is never
read: the result is the same for every lockfile state). -/
theorem C7_analyze_missing_manifest (crates : String → Option CrateInfo)
    (projectPath : String) (lock lock' : Option String) :
    analyze crates projectPath { cargoToml := none, cargoLock := lock } =
      { success := false, error := some ("No Cargo.toml found in " ++ projectPath) } ∧
    (analyze crates projectPath { cargoToml := none, cargoLock := lock }).success = false ∧
    (∃ e, (analyze crates projectPath { cargoToml := none, cargoLock := lock }).error = some e ∧
      e ≠ "") ∧
    analyze crates projectPath { cargoToml := none, cargoLock := lock } =
      analyze crates projectPath { cargoToml := none, cargoLock := lock' } := by
  refine ⟨rfl, rfl, ⟨"No Cargo.toml found in " ++ projectPath, rfl, ?_⟩, rfl⟩
  exact append_ne_empty_of_left_ne_empty _ _ (by decide)

/-- The claim id is C8. A missing lockfile is signaled by the sentinel `none`
(JavaScript `null`) while an existing empty lockfile parses to the empty
package list; and when the manifest is present but the lockfile is absent,
`analyze` returns a failure result that still carries the manifest metadata
`cargoTomlInfo`. -/
theorem C8_lockfile_sentinel (crates : String → Option CrateInfo)
    (projectPath : String) (toml : String) :
    parseCargoLock none = none ∧
    parseCargoLock (some "") = some [] ∧
    analyze crates projectPath { cargoToml := some toml, cargoLock := none } =
      { success := false,
        error := some "No Cargo.lock found. Run `cargo generate-lockfile` first.",
        cargoTomlInfo := some (checkCargoToml (some toml)) } ∧
    (analyze crates projectPath { cargoToml := some toml, cargoLock := none }).success = false ∧
    (analyze crates projectPath { cargoToml := some toml, cargoLock := none }).cargoTomlInfo =
      some (checkCargoToml (some toml)) := by
  exact ⟨rfl, by decide, rfl, rfl, rfl⟩

/-! ## Fix executor: C9 -/

theorem classifyOutcome_counts (outcome : SpawnOutcome) (issue : Issue) (results : FixResults) :
    (classifyOutcome outcome issue results).updated.length +
        (classifyOutcome outcome issue results).skipped.length +
        (classifyOutcome outcome issue results).failed.length =
      results.updated.length + results.skipped.length + results.failed.length + 1 ∧
    (classifyOutcome outcome issue results).configCreated = results.configCreated ∧
    (classifyOutcome outcome issue results).cargoTomlUpdated = results.cargoTomlUpdated := by
  cases outcome with
  | ok status stderr =>
    simp only [classifyOutcome]
    split_ifs <;> simp <;> omega
  | exn message =>
    refine ⟨?_, rfl, rfl⟩
    simp [classifyOutcome]
    omega

theorem applyFixesLoop_spec (spawn : Nat → SpawnOutcome) :
    ∀ (issues : List Issue) (i : Nat) (results : FixResults),
      (applyFixesLoop spawn issues i results).2 =
        issues.map (fun issue =>
          { cmd := "cargo",
            args := ["update", "-p", issue.name, "--precise", issue.maxCompatible] }) ∧
      (applyFixesLoop spawn issues i results).1.updated.length +
          (applyFixesLoop spawn issues i results).1.skipped.length +
          (applyFixesLoop spawn issues i results).1.failed.length =
        results.updated.length + results.skipped.length + results.failed.length +
          issues.length ∧
      (applyFixesLoop spawn issues i results).1.configCreated = results.configCreated ∧
      (applyFixesLoop spawn issues i results).1.cargoTomlUpdated = results.cargoTomlUpdated := by
  intro issues
  induction issues with
  | nil => intro i results; exact ⟨rfl, by simp [applyFixesLoop], rfl, rfl⟩
  | cons issue rest ih =>
    intro i results
    obtain ⟨h1, h2, h3, h4⟩ := ih (i + 1) (classifyOutcome (spawn i) issue results)
    obtain ⟨c1, c2, c3⟩ := classifyOutcome_counts (spawn i) issue results
    refine ⟨?_, ?_, ?_, ?_⟩
    · simp only [applyFixesLoop, List.map_cons]
      rw [h1]
    · simp only [applyFixesLoop]
      rw [h2, c1]
      simp [Nat.add_assoc, Nat.add_comm, Nat.add_left_comm]
    · simp only [applyFixesLoop]
      rw [h3, c2]
    · simp only [applyFixesLoop]
      rw [h4, c3]

/-- The claim id is C9. Running `applyFixes` with an empty issue list
performs only the configuration-file step (`configCreated` is true exactly
when the config was absent and the write succeeds) and spawns no subprocess;
and in general the loop spawns exactly one subprocess per issue, in order,
never aborts early, and classifies every issue into exactly one of
updated / skipped / failed, whose counts sum to the number of issues. -/
theorem C9_applyFixes_frame :
    (∀ w : FixWorld, applyFixes w [] =
      ({ updated := [], failed := [], skipped := [],
         configCreated := !w.configExists && w.configWriteOk,
         cargoTomlUpdated := false }, [])) ∧
    (∀ (w : FixWorld) (issues : List Issue),
      (applyFixes w issues).2 = issues.map (fun issue =>
        { cmd := "cargo",
          args := ["update", "-p", issue.name, "--precise", issue.maxCompatible] })) ∧
    (∀ (w : FixWorld) (issues : List Issue),
      (applyFixes w issues).1.updated.length + (applyFixes w issues).1.skipped.length +
        (applyFixes w issues).1.failed.length = issues.length) := by
  refine ⟨fun w => ?_, fun w issues => ?_, fun w issues => ?_⟩
  · cases hce : w.configExists <;> cases hcw : w.configWriteOk <;>
      simp [applyFixes, applyFixesLoop, hce, hcw]
  · exact (applyFixesLoop_spec w.spawn issues 0 _).1
  · have h := (applyFixesLoop_spec w.spawn issues 0
      (if !w.configExists then
        if w.configWriteOk then
          { updated := [], failed := [], skipped := [],
            configCreated := true, cargoTomlUpdated := false }
        else
          { updated := [], failed := [], skipped := [],
            configCreated := false, cargoTomlUpdated := false }
      else
        { updated := [], failed := [], skipped := [],
          configCreated := false, cargoTomlUpdated := false })).2.1
    cases hce : w.configExists <;> cases hcw : w.configWriteOk <;>
      simp_all [applyFixes]

/-! ## Lockfile parser: C4 -/

theorem matchKeyVal_ne_empty (key line : List Char) (s : String)
    (h : matchKeyVal key line = some s) : s ≠ "" := by
  unfold matchKeyVal at h
  repeat' split at h
  all_goals try exact Option.noConfusion h
  injection h with h3
  subst h3
  intro heq
  have h2 := congrArg String.data heq
  simp at h2

theorem stepLine_name (pp : PkgDraft) (line : List Char) :
    (stepLine pp line).name =
      match matchKeyVal "name".data line with
      | some v => some v
      | none => pp.name := by
  unfold stepLine
  rcases h1 : matchKeyVal "name".data line with _ | v1 <;>
    rcases h2 : matchKeyVal "version".data line with _ | v2 <;>
    rcases h3 : matchKeyVal "source".data line with _ | v3 <;>
    simp [h1, h2, h3]

theorem stepLine_version (pp : PkgDraft) (line : List Char) :
    (stepLine pp line).version =
      match matchKeyVal "version".data line with
      | some v => some v
      | none => pp.version := by
  unfold stepLine
  rcases h1 : matchKeyVal "name".data line with _ | v1 <;>
    rcases h2 : matchKeyVal "version".data line with _ | v2 <;>
    rcases h3 : matchKeyVal "source".data line with _ | v3 <;>
    simp [h1, h2, h3]

theorem foldl_stepLine_name (blk : List (List Char)) :
    ∀ pp : PkgDraft,
      ((blk.foldl stepLine pp).name).isSome =
        (pp.name.isSome || blk.any (fun l => (matchKeyVal "name".data l).isSome)) := by
  induction blk with
  | nil => intro pp; simp
  | cons l ls ih =>
    intro pp
    simp only [List.foldl_cons, List.any_cons]
    rw [ih]
    rcases h : matchKeyVal "name".data l with _ | v <;>
      simp [stepLine_name, h, Bool.or_assoc, Bool.or_comm, Bool.or_left_comm]

theorem foldl_stepLine_version (blk : List (List Char)) :
    ∀ pp : PkgDraft,
      ((blk.foldl stepLine pp).version).isSome =
        (pp.version.isSome || blk.any (fun l => (matchKeyVal "version".data l).isSome)) := by
  induction blk with
  | nil => intro pp; simp
  | cons l ls ih =>
    intro pp
    simp only [List.foldl_cons, List.any_cons]
    rw [ih]
    rcases h : matchKeyVal "version".data l with _ | v <;>
      simp [stepLine_version, h, Bool.or_assoc, Bool.or_comm, Bool.or_left_comm]

theorem foldl_stepLine_name_ne_empty (blk : List (List Char)) :
    ∀ pp : PkgDraft, (∀ n, pp.name = some n → n ≠ "") →
      ∀ n, (blk.foldl stepLine pp).name = some n → n ≠ "" := by
  induction blk with
  | nil => intro pp hp; exact hp
  | cons l ls ih =>
    intro pp hp
    refine ih (stepLine pp l) ?_
    intro n hn
    rw [stepLine_name] at hn
    rcases h : matchKeyVal "name".data l with _ | v
    · rw [h] at hn; exact hp n hn
    · rw [h] at hn
      exact Option.some_inj.mp hn ▸ matchKeyVal_ne_empty _ _ _ h

theorem foldl_stepLine_version_ne_empty (blk : List (List Char)) :
    ∀ pp : PkgDraft, (∀ v, pp.version = some v → v ≠ "") →
      ∀ v, (blk.foldl stepLine pp).version = some v → v ≠ "" := by
  induction blk with
  | nil => intro pp hp; exact hp
  | cons l ls ih =>
    intro pp hp
    refine ih (stepLine pp l) ?_
    intro v hv
    rw [stepLine_version] at hv
    rcases h : matchKeyVal "version".data l with _ | w
    · rw [h] at hv; exact hp v hv
    · rw [h] at hv
      exact Option.some_inj.mp hv ▸ matchKeyVal_ne_empty _ _ _ h

theorem recordOfBlockSpec_emits (blk : List (List Char)) :
    (∃ r, recordOfBlockSpec blk = [r]) ↔
      (blk.any (fun l => (matchKeyVal "name".data l).isSome) = true ∧
       blk.any (fun l => (matchKeyVal "version".data l).isSome) = true) := by
  unfold recordOfBlockSpec
  simp only [flushPkg]
  constructor
  · rintro ⟨r, hr⟩
    rcases hname : (blk.foldl stepLine {}).name with _ | n
    · rw [hname] at hr; simp at hr
    rcases hver : (blk.foldl stepLine {}).version with _ | v
    · rw [hname, hver] at hr; simp at hr
    constructor
    · have h := foldl_stepLine_name blk {}
      rw [hname] at h
      simpa using h.symm
    · have h := foldl_stepLine_version blk {}
      rw [hver] at h
      simpa using h.symm
  · rintro ⟨hn, hv⟩
    have h1 : ((blk.foldl stepLine {}).name).isSome := by
      rw [foldl_stepLine_name]; simp [hn]
    have h2 : ((blk.foldl stepLine {}).version).isSome := by
      rw [foldl_stepLine_version]; simp [hv]
    obtain ⟨n, hname⟩ := Option.isSome_iff_exists.mp h1
    obtain ⟨v, hver⟩ := Option.isSome_iff_exists.mp h2
    have hne1 : n ≠ "" := foldl_stepLine_name_ne_empty blk {} (by simp) n hname
    have hne2 : v ≠ "" := foldl_stepLine_version_ne_empty blk {} (by simp) v hver
    rw [hname, hver]
    refine ⟨{ name := n, version := v, source := (blk.foldl stepLine {}).source }, ?_⟩
    simp only []
    rw [if_neg (by tauto)]

theorem parseLines_inBlock (ls : List (List Char)) :
    ∀ (blkLines : List (List Char)) (acc : List PackageRecord),
      parseLines ls (some (blkLines.foldl stepLine {})) acc =
        acc ++ (blocksInSpec ls blkLines.reverse).flatMap recordOfBlockSpec := by
  induction ls with
  | nil =>
    intro blkLines acc
    simp [parseLines, blocksInSpec, recordOfBlockSpec]
  | cons l ls ih =>
    intro blkLines acc
    by_cases hl : l = "[[package]]".data
    · simp only [parseLines, if_pos hl, blocksInSpec, List.reverse_reverse]
      have h := ih [] (acc ++ flushPkg (some (blkLines.foldl stepLine {})))
      simp only [List.foldl_nil, List.reverse_nil] at h
      rw [h]
      simp [recordOfBlockSpec, List.append_assoc]
    · simp only [parseLines, if_neg hl, blocksInSpec]
      have h := ih (blkLines ++ [l]) acc
      rw [List.foldl_append] at h
      simp only [List.foldl_cons, List.foldl_nil, List.reverse_append,
        List.reverse_cons, List.reverse_nil, List.nil_append, List.singleton_append] at h
      exact h

theorem parseLines_none (lines : List (List Char)) :
    ∀ acc, parseLines lines none acc =
      acc ++ (blocksOfSpec lines).flatMap recordOfBlockSpec := by
  induction lines with
  | nil => intro acc; simp [parseLines, blocksOfSpec, flushPkg]
  | cons l ls ih =>
    intro acc
    by_cases hl : l = "[[package]]".data
    · simp only [parseLines, if_pos hl, blocksOfSpec, flushPkg, List.append_nil]
      have h := parseLines_inBlock ls [] acc
      simpa using h
    · simp only [parseLines, if_neg hl, blocksOfSpec]
      exact ih acc

/-- The claim id is C4. On existing lockfile content, `parseCargoLock`
returns exactly the records of the `[[package]]`-delimited blocks, in source
order (`blocksOfSpec` splits the lines at the delimiter; lines before the
first delimiter belong to no block); and a block yields exactly one record
iff it contains both a `name = "..."` line and a `version = "..."` line
(otherwise it is silently dropped: `recordOfBlockSpec` is empty and no error
is possible — the parser is a total function). -/
theorem C4_parseCargoLock_blocks (content : String) :
    parseCargoLock (some content) =
      some ((blocksOfSpec (jsSplitCh '\n' content.data)).flatMap recordOfBlockSpec) ∧
    (∀ blk : List (List Char),
      (∃ r, recordOfBlockSpec blk = [r]) ↔
        (blk.any (fun l => (matchKeyVal "name".data l).isSome) = true ∧
         blk.any (fun l => (matchKeyVal "version".data l).isSome) = true)) := by
  constructor
  · simp only [parseCargoLock]
    rw [parseLines_none]
    simp
  · exact recordOfBlockSpec_emits

end EditionFixer
